import Mathlib

/-!
Verification of the task-queue lifecycle engine (`agent_tasks/task_queue.py`).

The engine stores tasks as an ordered list of records in a `tasks.jsonl`
file; every operation loads the full list, validates, mutates, and rewrites
the file.  We embed that shallowly: the persisted collection is a
`List Task`, each engine operation is a pure function from the loaded list
to its result together with the list that would be written back, and a
`wrote` flag records whether the operation reached its replace-all write
(`_save_all`).  Clock readings (`datetime.now(...).isoformat()`) and the
fresh-id generator (`uuid.uuid4().hex[:12]`) are passed in as explicit
string parameters, since the Python code only ever treats them as opaque
strings compared lexicographically.
-/

namespace AgentTasks

/-- Status constant `PENDING` from the source. -/
def PENDING : String := "pending"

/-- Status constant `RUNNING` from the source. -/
def RUNNING : String := "running"

/-- Status constant `DONE` from the source. -/
def DONE : String := "done"

/-- Status constant `FAILED` from the source. -/
def FAILED : String := "failed"

/-- Status constant `BLOCKED` from the source. -/
def BLOCKED : String := "blocked"

/-- One task record, mirroring the eighteen `__slots__` fields of the
Python `Task` class.  Python's `None` becomes `Option.none`; `metadata` is
an opaque key/value list (the engine never inspects it). -/
structure Task where
  id : String
  name : String
  description : String
  status : String
  priority : Int
  created_at : String
  started_at : Option String
  completed_at : Option String
  due_at : Option String
  tags : List String
  metadata : List (String × String)
  depends_on : List String
  subtasks : List String
  retries : Int
  max_retries : Int
  timeout : Int
  result : Option String
  error : Option String
deriving DecidableEq

/-- The dictionary form of a task, as passed to `Task.__init__` and as
produced by `Task.to_dict`: each of the eighteen fields may be present or
absent (`data.get(key, default)`).  For the fields whose stored value may
itself be `None` (`started_at`, `completed_at`, `due_at`, `result`,
`error`), `Task.__init__` cannot distinguish an absent key from a stored
`null`, so a single `Option` layer models both. -/
structure TaskRecord where
  id : Option String := none
  name : Option String := none
  description : Option String := none
  status : Option String := none
  priority : Option Int := none
  created_at : Option String := none
  started_at : Option String := none
  completed_at : Option String := none
  due_at : Option String := none
  tags : Option (List String) := none
  metadata : Option (List (String × String)) := none
  depends_on : Option (List String) := none
  subtasks : Option (List String) := none
  retries : Option Int := none
  max_retries : Option Int := none
  timeout : Option Int := none
  result : Option String := none
  error : Option String := none
deriving DecidableEq

/-- `Task.__init__`: build a task from a dictionary, applying the source's
defaulting rules.  `freshId` stands for `uuid.uuid4().hex[:12]` and `now`
for the `created_at` stamp `datetime.now(timezone.utc).isoformat()`. -/
def Task.ofDict (data : TaskRecord) (freshId now : String) : Task where
  id := data.id.getD freshId
  name := data.name.getD ""
  description := data.description.getD ""
  status := data.status.getD PENDING
  priority := data.priority.getD 3
  created_at := data.created_at.getD now
  started_at := data.started_at
  completed_at := data.completed_at
  due_at := data.due_at
  tags := data.tags.getD []
  metadata := data.metadata.getD []
  depends_on := data.depends_on.getD []
  subtasks := data.subtasks.getD []
  retries := data.retries.getD 0
  max_retries := data.max_retries.getD 3
  timeout := data.timeout.getD 300
  result := data.result
  error := data.error

/-- `Task.to_dict`: serialize a task to its full-field dictionary; every
key is present. -/
def Task.to_dict (t : Task) : TaskRecord where
  id := some t.id
  name := some t.name
  description := some t.description
  status := some t.status
  priority := some t.priority
  created_at := some t.created_at
  started_at := t.started_at
  completed_at := t.completed_at
  due_at := t.due_at
  tags := some t.tags
  metadata := some t.metadata
  depends_on := some t.depends_on
  subtasks := some t.subtasks
  retries := some t.retries
  max_retries := some t.max_retries
  timeout := some t.timeout
  result := t.result
  error := t.error

/-- **C8.** Serializing a `Task` to its persisted record form and parsing
that record back (`Task(t.to_dict())`) yields a task all eighteen of whose
fields equal the original's: the defaults for `id` and `created_at` never
fire because `to_dict` emits every key. -/
theorem task_roundtrip_lossless (t : Task) (freshId now : String) :
    Task.ofDict (Task.to_dict t) freshId now = t := rfl

/-- Outcome of a lifecycle operation: the returned task (`None` is the
soft-failure "empty result"), the task list the operation leaves behind,
and whether the operation reached its replace-all write (`_save_all`). -/
structure EngineResult where
  task : Option Task
  store : List Task
  wrote : Bool
deriving DecidableEq

/-- Outcome of `delete`: its boolean return value, the resulting task
list, and whether `_save_all` was reached. -/
structure DeleteResult where
  ok : Bool
  store : List Task
  wrote : Bool
deriving DecidableEq

/-- Update the first list element satisfying `p` with `f`, leaving the
rest untouched.  Mirrors the Python pattern of `_find` returning a live
reference into the loaded list which the operation then mutates in place
before `_save_all` rewrites the whole list. -/
def updateFirst (p : Task → Bool) (f : Task → Task) : List Task → List Task
  | [] => []
  | x :: xs => if p x then f x :: xs else x :: updateFirst p f xs

namespace TaskQueue

/-- `TaskQueue._find`: linear scan for the first task with the given id. -/
def findTask (task_id : String) (tasks : List Task) : Option Task :=
  tasks.find? (fun t => t.id == task_id)

/-- Configuration keys the lifecycle operations read (`config.json`
defaults: `max_retries = 3`, `default_priority = 3`,
`default_timeout = 300`). -/
structure Config where
  max_retries : Int := 3
  default_priority : Int := 3
  default_timeout : Int := 300
deriving DecidableEq

/-- The membership test a dependency id must fail for `TaskQueue.add` to
leave it in `unfinished`: some stored task has this id with status other
than `DONE`, or no stored task has this id. -/
def depUnfinished (tasks : List Task) (d : String) : Bool :=
  tasks.any (fun t => t.id == d && !(t.status == DONE)) || !(tasks.any (fun t => t.id == d))

/-- `TaskQueue.add`: clamp the priority into `[1, 5]` (defaulting from
configuration), default the timeout, build the task from its constructor
dictionary, mark it `BLOCKED` when it has dependencies and at least one is
unfinished, and append it to the store.  `freshId`/`now` stand for the
generated id and the creation timestamp. -/
def add (name description : String) (priority : Option Int)
    (tags : Option (List String)) (dependsOn : Option (List String))
    (metadata : Option (List (String × String))) (timeout : Option Int)
    (due_at : Option String) (cfg : Config) (freshId now : String)
    (tasks : List Task) : Task × List Task :=
  let priority := match priority with
    | none => cfg.default_priority
    | some p => p
  let priority := max 1 (min 5 priority)
  let timeout := match timeout with
    | none => cfg.default_timeout
    | some x => x
  let task := Task.ofDict
    { name := some name, description := some description,
      priority := some priority, tags := some (tags.getD []),
      depends_on := some (dependsOn.getD []),
      metadata := some (metadata.getD []), timeout := some timeout,
      due_at := due_at, max_retries := some cfg.max_retries } freshId now
  let unfinished := task.depends_on.filter (depUnfinished tasks)
  let task :=
    if !task.depends_on.isEmpty && !unfinished.isEmpty then
      { task with status := BLOCKED }
    else task
  (task, tasks ++ [task])

/-- `TaskQueue.list`, filtering phase: optional exact-status filter and
optional tag-membership filter, each skipped when the argument is absent
or the empty string (Python truthiness of `if status:` / `if tag:`). -/
def listMatches (status tag : Option String) (tasks : List Task) : List Task :=
  let tasks := match status with
    | some s => if s.isEmpty then tasks else tasks.filter (fun t => t.status == s)
    | none => tasks
  match tag with
  | some g => if g.isEmpty then tasks else tasks.filter (fun t => t.tags.contains g)
  | none => tasks

/-- Python list slicing `l[i:]` for a possibly negative start index:
a negative `i` counts from the end (clamped at the front), a nonnegative
`i` is clamped at the back. -/
def sliceFrom (i : Int) (l : List Task) : List Task :=
  if i < 0 then l.drop ((l.length + i).toNat) else l.drop (min i.toNat l.length)

/-- `TaskQueue.list`: filter, then take `tasks[-limit:]`. -/
def list (status tag : Option String) (limit : Int) (tasks : List Task) : List Task :=
  sliceFrom (-limit) (listMatches status tag tasks)

/-- The sort order of `TaskQueue.next`: the key
`(-priority, created_at)` compared lexicographically, i.e. higher
priority wins and ties go to the lexicographically earlier `created_at`. -/
def nextRel (a b : Task) : Prop :=
  b.priority < a.priority ∨ (a.priority = b.priority ∧ a.created_at ≤ b.created_at)

instance : DecidableRel nextRel := fun a b => by
  unfold nextRel; infer_instance

/-- `TaskQueue.next`: among the `PENDING` tasks, the head after a stable
sort by descending priority and ascending `created_at`; `none` when no
task is pending. -/
def next (tasks : List Task) : Option Task :=
  let pending := tasks.filter (fun t => t.status == PENDING)
  if pending.isEmpty then none
  else (List.insertionSort nextRel pending).head?

/-- `TaskQueue.start`: require the target to exist with status `PENDING`
or `BLOCKED`; set it `RUNNING` and stamp `started_at`. -/
def start (task_id now : String) (tasks : List Task) : EngineResult :=
  match findTask task_id tasks with
  | none => ⟨none, tasks, false⟩
  | some task =>
    if task.status == PENDING || task.status == BLOCKED then
      let upd : Task → Task := fun t =>
        { t with status := RUNNING, started_at := some now }
      ⟨some (upd task), updateFirst (fun t => t.id == task_id) upd tasks, true⟩
    else ⟨none, tasks, false⟩

/-- The set of ids `_unblock_dependents` treats as done: the completed id
itself together with every id stored with status `DONE`. -/
def doneIds (completed_id : String) (tasks : List Task) (d : String) : Bool :=
  d == completed_id || tasks.any (fun t => t.id == d && t.status == DONE)

/-- `TaskQueue._unblock_dependents`: with the done-id set computed once up
front, promote every `BLOCKED` task with a nonempty `depends_on` all of
whose entries are in that set to `PENDING`. -/
def unblockDependents (completed_id : String) (tasks : List Task) : List Task :=
  tasks.map (fun t =>
    if t.status == BLOCKED && !t.depends_on.isEmpty
        && t.depends_on.all (doneIds completed_id tasks) then
      { t with status := PENDING }
    else t)

/-- The in-place mutation `complete` performs on the found task before
unblocking dependents: status `DONE`, `completed_at` stamped, `result`
recorded. -/
def completeMark (task_id : String) (result : Option String) (now : String)
    (tasks : List Task) : List Task :=
  updateFirst (fun t => t.id == task_id)
    (fun t => { t with status := DONE, completed_at := some now, result := result })
    tasks

/-- `TaskQueue.complete`: require the target to exist with status
`RUNNING`; mark it `DONE` and run `_unblock_dependents` before saving. -/
def complete (task_id : String) (result : Option String) (now : String)
    (tasks : List Task) : EngineResult :=
  match findTask task_id tasks with
  | none => ⟨none, tasks, false⟩
  | some task =>
    if task.status == RUNNING then
      let task := { task with status := DONE, completed_at := some now, result := result }
      ⟨some task, unblockDependents task_id (completeMark task_id result now tasks), true⟩
    else ⟨none, tasks, false⟩

/-- `TaskQueue.fail`: require the target to exist with status `RUNNING`;
increment `retries`, then retry (`PENDING`) while the new count is below
`max_retries`, else finalize as `FAILED`. -/
def fail (task_id : String) (error : Option String) (now : String)
    (tasks : List Task) : EngineResult :=
  match findTask task_id tasks with
  | none => ⟨none, tasks, false⟩
  | some task =>
    if task.status == RUNNING then
      let upd : Task → Task := fun t =>
        let t := { t with retries := t.retries + 1 }
        if t.retries < t.max_retries then
          { t with status := PENDING, error := error }
        else
          { t with status := FAILED, completed_at := some now, error := error }
      ⟨some (upd task), updateFirst (fun t => t.id == task_id) upd tasks, true⟩
    else ⟨none, tasks, false⟩

/-- `TaskQueue.cancel`: require the target to exist with status `PENDING`
or `BLOCKED`; mark it `FAILED` with the fixed `"Cancelled"` error. -/
def cancel (task_id now : String) (tasks : List Task) : EngineResult :=
  match findTask task_id tasks with
  | none => ⟨none, tasks, false⟩
  | some task =>
    if task.status == PENDING || task.status == BLOCKED then
      let upd : Task → Task := fun t =>
        { t with status := FAILED, completed_at := some now, error := some "Cancelled" }
      ⟨some (upd task), updateFirst (fun t => t.id == task_id) upd tasks, true⟩
    else ⟨none, tasks, false⟩

/-- `TaskQueue.delete`: drop every record with the given id; report
`false` (and skip the write) when nothing was dropped. -/
def delete (task_id : String) (tasks : List Task) : DeleteResult :=
  let new := tasks.filter (fun t => !(t.id == task_id))
  if new.length = tasks.length then ⟨false, tasks, false⟩
  else ⟨true, new, true⟩

/-- `TaskQueue.overdue`: tasks whose `due_at` is set, truthy (nonempty),
lexicographically before `now`, and whose status is neither `DONE` nor
`FAILED`.  (`if t.due_at and t.due_at < now` — an empty string is falsy in
Python just like `None`.) -/
def overdue (now : String) (tasks : List Task) : List Task :=
  tasks.filter (fun t =>
    match t.due_at with
    | some d => !d.isEmpty && decide (d < now)
        && !(t.status == DONE) && !(t.status == FAILED)
    | none => false)

end TaskQueue

/-- A baseline task used to build the concrete stores of the witness and
counterexample theorems. -/
def baseTask : Task where
  id := "t"
  name := "task"
  description := ""
  status := PENDING
  priority := 3
  created_at := "2024-01-01T00:00:00+00:00"
  started_at := none
  completed_at := none
  due_at := none
  tags := []
  metadata := []
  depends_on := []
  subtasks := []
  retries := 0
  max_retries := 3
  timeout := 300
  result := none
  error := none

namespace TaskQueue

/-- **C6.** Every mutating operation that signals a soft failure (`start`,
`complete`, `fail`, `cancel` returning the empty result; `delete`
returning `false`) leaves the task collection exactly as loaded and never
reaches the replace-all write: each returns `None`/`False` before
`_save_all` is called. -/
theorem soft_failure_no_write (tasks : List Task) (task_id now : String)
    (r e : Option String) :
    ((start task_id now tasks).task = none →
      (start task_id now tasks).store = tasks ∧ (start task_id now tasks).wrote = false) ∧
    ((complete task_id r now tasks).task = none →
      (complete task_id r now tasks).store = tasks ∧
        (complete task_id r now tasks).wrote = false) ∧
    ((fail task_id e now tasks).task = none →
      (fail task_id e now tasks).store = tasks ∧ (fail task_id e now tasks).wrote = false) ∧
    ((cancel task_id now tasks).task = none →
      (cancel task_id now tasks).store = tasks ∧ (cancel task_id now tasks).wrote = false) ∧
    ((delete task_id tasks).ok = false →
      (delete task_id tasks).store = tasks ∧ (delete task_id tasks).wrote = false) := by
  refine ⟨?_, ?_, ?_, ?_, ?_⟩
  · intro h
    cases hf : findTask task_id tasks with
    | none => simp [start, hf]
    | some t =>
      by_cases hc : (t.status == PENDING || t.status == BLOCKED) = true
      · simp [start, hf, hc] at h
      · simp [start, hf, hc]
  · intro h
    cases hf : findTask task_id tasks with
    | none => simp [complete, hf]
    | some t =>
      by_cases hc : (t.status == RUNNING) = true
      · simp [complete, hf, hc] at h
      · simp [complete, hf, hc]
  · intro h
    cases hf : findTask task_id tasks with
    | none => simp [fail, hf]
    | some t =>
      by_cases hc : (t.status == RUNNING) = true
      · simp [fail, hf, hc] at h
      · simp [fail, hf, hc]
  · intro h
    cases hf : findTask task_id tasks with
    | none => simp [cancel, hf]
    | some t =>
      by_cases hc : (t.status == PENDING || t.status == BLOCKED) = true
      · simp [cancel, hf, hc] at h
      · simp [cancel, hf, hc]
  · intro h
    by_cases hl : (tasks.filter (fun t => !(t.id == task_id))).length = tasks.length
    · simp [delete, hl]
    · simp [delete, hl] at h

/-- Witness for `soft_failure_no_write`: on the empty store every
operation soft-fails, and each leaves the store empty without writing. -/
theorem soft_failure_no_write_witness :
    (start "x" "T" []).store = [] ∧ (start "x" "T" []).wrote = false := by
  have h := soft_failure_no_write [] "x" "T" none none
  exact h.1 rfl

/-- **C5.** `start(id)` returns the task set to `RUNNING` with
`started_at` stamped exactly when the target exists with prior status
`PENDING` or `BLOCKED`; on any other prior status, or an unknown id, it
returns the empty result and leaves the store as loaded. -/
theorem start_spec (tasks : List Task) (task_id now : String) :
    (findTask task_id tasks = none →
      start task_id now tasks = ⟨none, tasks, false⟩) ∧
    (∀ t, findTask task_id tasks = some t →
      (t.status = PENDING ∨ t.status = BLOCKED) →
      (start task_id now tasks).task =
        some { t with status := RUNNING, started_at := some now }) ∧
    (∀ t, findTask task_id tasks = some t →
      t.status ≠ PENDING → t.status ≠ BLOCKED →
      start task_id now tasks = ⟨none, tasks, false⟩) := by
  refine ⟨?_, ?_, ?_⟩
  · intro hf
    simp [start, hf]
  · intro t hf hst
    have hc : (t.status == PENDING || t.status == BLOCKED) = true := by
      rcases hst with h | h <;> simp [h]
    simp [start, hf, hc]
  · intro t hf h1 h2
    have hc : (t.status == PENDING || t.status == BLOCKED) = false := by
      simp [h1, h2]
    simp [start, hf, hc]

/-- Witness for `start_spec`: starting the baseline `PENDING` task
returns it `RUNNING` with `started_at` stamped. -/
theorem start_spec_witness :
    (start "t" "T" [baseTask]).task =
      some { baseTask with status := RUNNING, started_at := some "T" } := by
  have h := (start_spec [baseTask] "t" "T").2.1 baseTask (by decide) (Or.inl rfl)
  exact h

/-- **C2.** `fail(id, error)` on a located `RUNNING` task increments its
`retries` by exactly one, then re-queues it as `PENDING` with the error
recorded when the new count is strictly below `max_retries`, and
otherwise finalizes it as `FAILED` with `completed_at` stamped and the
error recorded; on a located non-`RUNNING` task, or an unknown id, it
returns the empty result and changes nothing. -/
theorem fail_spec (tasks : List Task) (task_id : String) (e : Option String)
    (now : String) :
    (findTask task_id tasks = none →
      fail task_id e now tasks = ⟨none, tasks, false⟩) ∧
    (∀ t, findTask task_id tasks = some t → t.status ≠ RUNNING →
      fail task_id e now tasks = ⟨none, tasks, false⟩) ∧
    (∀ t, findTask task_id tasks = some t → t.status = RUNNING →
      (t.retries + 1 < t.max_retries →
        (fail task_id e now tasks).task =
          some { t with retries := t.retries + 1, status := PENDING, error := e }) ∧
      (¬ t.retries + 1 < t.max_retries →
        (fail task_id e now tasks).task =
          some { t with retries := t.retries + 1, status := FAILED, completed_at := some now, error := e })) := by
  refine ⟨?_, ?_, ?_⟩
  · intro hf
    simp [fail, hf]
  · intro t hf h1
    have hc : (t.status == RUNNING) = false := by simp [h1]
    simp [fail, hf, hc]
  · intro t hf hst
    have hc : (t.status == RUNNING) = true := by simp [hst]
    constructor
    · intro hlt
      simp [fail, hf, hc, hlt]
    · intro hge
      simp [fail, hf, hc, hge]

/-- Witness for `fail_spec`: failing a `RUNNING` task with one retry left
(`retries = 0`, `max_retries = 1`) finalizes it as `FAILED` with
`retries = 1`; failing one with budget (`max_retries = 3`) re-queues it
as `PENDING` with `retries = 1`. -/
theorem fail_spec_witness :
    (fail "t" (some "boom") "T" [{ baseTask with status := RUNNING, max_retries := 1 }]).task =
      some { baseTask with status := FAILED, max_retries := 1, retries := 1, completed_at := some "T", error := some "boom" } ∧
    (fail "t" (some "boom") "T" [{ baseTask with status := RUNNING }]).task =
      some { baseTask with status := PENDING, retries := 1, error := some "boom" } := by
  constructor
  · have h := ((fail_spec [{ baseTask with status := RUNNING, max_retries := 1 }]
      "t" (some "boom") "T").2.2 { baseTask with status := RUNNING, max_retries := 1 }
      (by decide) rfl).2 (by decide)
    exact h
  · have h := ((fail_spec [{ baseTask with status := RUNNING }]
      "t" (some "boom") "T").2.2 { baseTask with status := RUNNING }
      (by decide) rfl).1 (by decide)
    exact h

/-- **C10.** `delete(id)` removes every record whose id equals the given
id (so duplicate ids are all removed), returns `true` exactly when at
least one such record existed, and keeps the remaining records in their
original relative order (the result is a sublist of the input). -/
theorem delete_spec (tasks : List Task) (task_id : String) :
    ((delete task_id tasks).ok = true ↔ ∃ t ∈ tasks, t.id = task_id) ∧
    (delete task_id tasks).store = tasks.filter (fun t => !(t.id == task_id)) ∧
    (∀ t ∈ (delete task_id tasks).store, t.id ≠ task_id) ∧
    List.Sublist (delete task_id tasks).store tasks := by
  have hsub : List.Sublist (tasks.filter (fun t => !(t.id == task_id))) tasks :=
    List.filter_sublist tasks
  have hstore : (delete task_id tasks).store =
      tasks.filter (fun t => !(t.id == task_id)) := by
    by_cases hl : (tasks.filter (fun t => !(t.id == task_id))).length = tasks.length
    · have : tasks.filter (fun t => !(t.id == task_id)) = tasks :=
        hsub.eq_of_length hl
      simp [delete, hl, this]
    · simp [delete, hl]
  have hok : (delete task_id tasks).ok = true ↔ ∃ t ∈ tasks, t.id = task_id := by
    by_cases hl : (tasks.filter (fun t => !(t.id == task_id))).length = tasks.length
    · have heq : tasks.filter (fun t => !(t.id == task_id)) = tasks :=
        hsub.eq_of_length hl
      have hd : delete task_id tasks = ⟨false, tasks, false⟩ := by
        simp [delete, hl]
      rw [hd]
      constructor
      · intro h; simp at h
      · rintro ⟨t, ht, hid⟩
        have hmem : t ∈ tasks.filter (fun t => !(t.id == task_id)) := by
          rw [heq]; exact ht
        simp [List.mem_filter, hid] at hmem
    · have hd : delete task_id tasks =
          ⟨true, tasks.filter (fun t => !(t.id == task_id)), true⟩ := by
        simp [delete, hl]
      rw [hd]
      constructor
      · intro _
        by_contra hno
        push_neg at hno
        have hfe : tasks.filter (fun t => !(t.id == task_id)) = tasks := by
          apply List.filter_eq_self.mpr
          intro a ha
          simp [hno a ha]
        exact hl (by rw [hfe])
      · intro _; rfl
  refine ⟨hok, hstore, ?_, hstore ▸ hsub⟩
  intro t ht
  rw [hstore] at ht
  simp [List.mem_filter] at ht
  exact ht.2

/-- Witness for `delete_spec` (its `ok` direction): deleting id `"t"`
from a two-copy store removes both records. -/
theorem delete_spec_witness :
    (delete "t" [baseTask, baseTask]).ok = true ∧
    (delete "t" [baseTask, baseTask]).store = [] := by
  have h := delete_spec [baseTask, baseTask] "t"
  refine ⟨h.1.mpr ⟨baseTask, by decide, rfl⟩, ?_⟩
  rw [h.2.1]
  decide

/-- The blocking condition of `TaskQueue.add`: the new task has a
nonempty `depends_on` and its `unfinished` sublist is nonempty. -/
def addBlocked (deps : List String) (tasks : List Task) : Bool :=
  !deps.isEmpty && !(deps.filter (depUnfinished tasks)).isEmpty

theorem depUnfinished_iff (tasks : List Task) (d : String) :
    depUnfinished tasks d = true ↔
      (∃ u ∈ tasks, u.id = d ∧ ¬u.status = DONE) ∨ ∀ u ∈ tasks, ¬u.id = d := by
  simp [depUnfinished]

theorem addBlocked_iff (deps : List String) (tasks : List Task) :
    addBlocked deps tasks = true ↔ ∃ d ∈ deps, depUnfinished tasks d = true := by
  simp only [addBlocked, Bool.and_eq_true, Bool.not_eq_true', List.isEmpty_eq_false]
  constructor
  · rintro ⟨-, hne⟩
    rcases List.exists_mem_of_ne_nil _ hne with ⟨d, hd⟩
    rw [List.mem_filter] at hd
    exact ⟨d, hd.1, hd.2⟩
  · rintro ⟨d, hd, hp⟩
    refine ⟨List.ne_nil_of_mem hd, ?_⟩
    exact List.ne_nil_of_mem (List.mem_filter.mpr ⟨hd, hp⟩)

/-- The status of the task `TaskQueue.add` creates, as a function of its
blocking condition. -/
theorem add_status_eq (name description : String) (priority : Option Int)
    (tags : Option (List String)) (dependsOn : Option (List String))
    (md : Option (List (String × String))) (timeout : Option Int)
    (due_at : Option String) (cfg : Config) (freshId now : String)
    (tasks : List Task) :
    (add name description priority tags dependsOn md timeout due_at cfg freshId
        now tasks).1.status =
      if addBlocked (dependsOn.getD []) tasks then BLOCKED else PENDING := by
  by_cases hb : addBlocked (dependsOn.getD []) tasks = true
  · have hb' := hb
    simp only [addBlocked] at hb'
    simp [add, Task.ofDict, addBlocked, hb, hb']
  · have hb' : addBlocked (dependsOn.getD []) tasks = false := by
      simpa using hb
    have hb'' := hb'
    simp only [addBlocked] at hb''
    simp [add, Task.ofDict, addBlocked, hb', hb'']

/-- **C3.** The task created by `add` is `BLOCKED` if and only if some
entry of its `depends_on` list is either absent from the store or present
with a status other than `DONE`; otherwise — in particular whenever
`depends_on` is empty — it is `PENDING`. -/
theorem add_status_spec (name description : String) (priority : Option Int)
    (tags : Option (List String)) (dependsOn : Option (List String))
    (md : Option (List (String × String))) (timeout : Option Int)
    (due_at : Option String) (cfg : Config) (freshId now : String)
    (tasks : List Task) :
    ((add name description priority tags dependsOn md timeout due_at cfg freshId
        now tasks).1.status = BLOCKED ↔
      ∃ d ∈ dependsOn.getD [],
        (∃ u ∈ tasks, u.id = d ∧ ¬u.status = DONE) ∨ ∀ u ∈ tasks, ¬u.id = d) ∧
    ((add name description priority tags dependsOn md timeout due_at cfg freshId
        now tasks).1.status = PENDING ↔
      ¬ ∃ d ∈ dependsOn.getD [],
        (∃ u ∈ tasks, u.id = d ∧ ¬u.status = DONE) ∨ ∀ u ∈ tasks, ¬u.id = d) := by
  have hstat := add_status_eq name description priority tags dependsOn md timeout
    due_at cfg freshId now tasks
  have hchar : addBlocked (dependsOn.getD []) tasks = true ↔
      ∃ d ∈ dependsOn.getD [],
        (∃ u ∈ tasks, u.id = d ∧ ¬u.status = DONE) ∨ ∀ u ∈ tasks, ¬u.id = d := by
    rw [addBlocked_iff]
    constructor
    · rintro ⟨d, hd, hp⟩; exact ⟨d, hd, (depUnfinished_iff tasks d).mp hp⟩
    · rintro ⟨d, hd, hp⟩; exact ⟨d, hd, (depUnfinished_iff tasks d).mpr hp⟩
  by_cases hb : addBlocked (dependsOn.getD []) tasks = true
  · rw [hb, if_pos rfl] at hstat
    refine ⟨⟨fun _ => hchar.mp hb, fun _ => hstat⟩, ?_, ?_⟩
    · intro h
      exact absurd (hstat.symm.trans h) (by decide)
    · intro h
      exact absurd (hchar.mp hb) h
  · have hb' : addBlocked (dependsOn.getD []) tasks = false := by simpa using hb
    rw [hb', if_neg (by simp)] at hstat
    refine ⟨⟨fun h => absurd (hstat.symm.trans h) (by decide), ?_⟩,
            fun _ => fun h => hb (hchar.mpr h), fun _ => hstat⟩
    intro h
    exact absurd (hchar.mpr h) (by simp [hb'])

/-- Witness for `add_status_spec`: a task depending on an id absent from
the empty store is created `BLOCKED`; a task with no dependencies is
created `PENDING`. -/
theorem add_status_spec_witness :
    (add "B" "" none none (some ["a"]) none none none {} "b" "T" []).1.status = BLOCKED ∧
    (add "A" "" none none none none none none {} "a" "T" []).1.status = PENDING := by
  constructor
  · exact (add_status_spec "B" "" none none (some ["a"]) none none none {} "b" "T"
      []).1.mpr ⟨"a", by decide, Or.inr (by simp)⟩
  · exact (add_status_spec "A" "" none none none none none none {} "a" "T"
      []).2.mpr (by simp)

/-- **C9 (amended).** `overdue()` returns exactly the tasks whose
`due_at` is present *and nonempty*, lexicographically smaller than the
current timestamp, and whose status is neither `DONE` nor `FAILED`.  The
nonemptiness condition is forced by Python truthiness: the source guard is
`t.due_at and t.due_at < now`, which rejects `due_at = ""` as well as
`None`. -/
theorem string_isEmpty_false_iff (s : String) : s.isEmpty = false ↔ ¬s = "" := by
  constructor
  · intro h heq
    subst heq
    exact absurd h (by decide)
  · intro h
    cases hb : s.isEmpty
    · rfl
    · exact absurd ((String.isEmpty_iff s).mp hb) h

theorem overdue_spec (now : String) (tasks : List Task) (t : Task) :
    t ∈ overdue now tasks ↔
      t ∈ tasks ∧ (∃ d, t.due_at = some d ∧ ¬d = "" ∧ d < now) ∧
        ¬t.status = DONE ∧ ¬t.status = FAILED := by
  rw [overdue, List.mem_filter]
  refine and_congr_right fun _ => ?_
  cases hd : t.due_at with
  | none => simp [hd]
  | some d => simp [hd, string_isEmpty_false_iff, and_assoc]

/-- Witness for `overdue_spec`: a pending task with a past nonempty
`due_at` is in the overdue list. -/
theorem overdue_spec_witness :
    { baseTask with due_at := some "2020-01-01T00:00:00+00:00" } ∈
      overdue "2024-06-01T00:00:00+00:00"
        [{ baseTask with due_at := some "2020-01-01T00:00:00+00:00" }] := by
  refine (overdue_spec "2024-06-01T00:00:00+00:00" _ _).mpr
    ⟨by decide, ⟨"2020-01-01T00:00:00+00:00", rfl, by decide,
      by rw [String.lt_iff_toList_lt]; decide⟩, by decide, by decide⟩

/-- Counterexample to C9 as stated: a `PENDING` task whose `due_at` is
the non-null empty string.  The empty string compares strictly below the
current timestamp, and the status is neither `DONE` nor `FAILED`, so the
claim requires the task to be returned — but the source's truthiness
guard `if t.due_at and ...` drops it, and `overdue` returns nothing. -/
theorem overdue_spec_counterexample :
    overdue "2024-06-01T00:00:00+00:00" [{ baseTask with due_at := some "" }] = [] ∧
    ({ baseTask with due_at := some "" } : Task).due_at = some "" ∧
    ("" < "2024-06-01T00:00:00+00:00") ∧
    ¬({ baseTask with due_at := some "" } : Task).status = DONE ∧
    ¬({ baseTask with due_at := some "" } : Task).status = FAILED := by
  refine ⟨rfl, rfl, by rw [String.lt_iff_toList_lt]; decide, by decide, by decide⟩

/-- **C7 (amended).** For every store contents, optional status filter,
optional tag filter, and limit `N ≥ 1`, `list(status, tag, N)` returns a
suffix (in insertion order) of the tasks matching both filters, of length
at most `N`. -/
theorem list_spec (status tag : Option String) (limit : Int) (tasks : List Task)
    (h : 1 ≤ limit) :
    List.IsSuffix (list status tag limit tasks) (listMatches status tag tasks) ∧
    ((list status tag limit tasks).length : Int) ≤ limit := by
  have hneg : -limit < 0 := by omega
  constructor
  · rw [list, sliceFrom, if_pos hneg]
    exact List.drop_suffix _ _
  · rw [list, sliceFrom, if_pos hneg, List.length_drop]
    omega

/-- Witness for `list_spec`: with limit 2 over a three-task store, at
most two tasks come back, and they form a suffix of the matches. -/
theorem list_spec_witness :
    ((list none none 2 [baseTask, baseTask, baseTask]).length : Int) ≤ 2 :=
  (list_spec none none 2 [baseTask, baseTask, baseTask] (by decide)).2

/-- Counterexample to C7 as stated: with limit `N = 0` the Python slice
`tasks[-0:]` is `tasks[0:]`, the whole match list, so `list` returns one
task where the claim allows at most zero. -/
theorem list_spec_counterexample :
    (list none none 0 [baseTask]).length = 1 ∧
    ¬ (((list none none 0 [baseTask]).length : Int) ≤ 0) := by
  exact ⟨rfl, by decide⟩

/-- The promotion condition of `_unblock_dependents`, in propositional
form: the task is `BLOCKED`, has a nonempty `depends_on`, and every
dependency id is in the done-id set. -/
theorem unblockCond_iff (cid : String) (ts : List Task) (u : Task) :
    (u.status == BLOCKED && !u.depends_on.isEmpty
        && u.depends_on.all (doneIds cid ts)) = true ↔
      u.status = BLOCKED ∧ ¬u.depends_on = [] ∧
        ∀ d ∈ u.depends_on, doneIds cid ts d = true := by
  simp [and_assoc]

/-- **C1 (amended).** After a successful `complete(A)`, writing `S` for
the marked list (the loaded store with the completed task set `DONE`) and
taking the done-id set of `_unblock_dependents` (`A`'s id together with
every id stored with status `DONE` in `S`): every `BLOCKED` task of `S`
with a *nonempty* `depends_on` all of whose entries lie in that set has
status `PENDING` at its position in the persisted result, and every other
task — in particular a `BLOCKED` task with an empty `depends_on`, or one
with a dependency outside the set — is persisted unchanged (a blocked
task stays `BLOCKED`).  The nonemptiness proviso is forced by the
source's truthiness guard `if t.status == BLOCKED and t.depends_on`. -/
theorem complete_unblocks (tasks : List Task) (task_id : String)
    (r : Option String) (now : String) (t : Task)
    (h : (complete task_id r now tasks).task = some t) :
    ∀ i : Nat, ∀ u : Task,
      (completeMark task_id r now tasks)[i]? = some u →
      ((u.status = BLOCKED ∧ ¬u.depends_on = [] ∧
          ∀ d ∈ u.depends_on,
            doneIds task_id (completeMark task_id r now tasks) d = true) →
        (complete task_id r now tasks).store[i]? =
          some { u with status := PENDING }) ∧
      (¬(u.status = BLOCKED ∧ ¬u.depends_on = [] ∧
          ∀ d ∈ u.depends_on,
            doneIds task_id (completeMark task_id r now tasks) d = true) →
        (complete task_id r now tasks).store[i]? = some u) := by
  have hstore : (complete task_id r now tasks).store =
      unblockDependents task_id (completeMark task_id r now tasks) := by
    cases hf : findTask task_id tasks with
    | none => simp [complete, hf] at h
    | some task =>
      by_cases hc : (task.status == RUNNING) = true
      · simp [complete, hf, hc]
      · simp [complete, hf, hc] at h
  intro i u hu
  rw [hstore, unblockDependents, List.getElem?_map, hu]
  cases hcond : (u.status == BLOCKED && !u.depends_on.isEmpty
      && u.depends_on.all (doneIds task_id (completeMark task_id r now tasks))) with
  | false =>
    constructor
    · intro hp
      have hb : (u.status == BLOCKED && !u.depends_on.isEmpty
          && u.depends_on.all (doneIds task_id (completeMark task_id r now tasks))) = true :=
        (unblockCond_iff task_id (completeMark task_id r now tasks) u).mpr hp
      rw [hcond] at hb
      cases hb
    · intro _
      rw [Option.map_some', if_neg (by rw [hcond]; decide)]
  | true =>
    constructor
    · intro _
      rw [Option.map_some', if_pos hcond]
    · intro hn
      exact absurd ((unblockCond_iff task_id
        (completeMark task_id r now tasks) u).mp hcond) hn

/-- The running task completed in the C1 witness and counterexample
stores. -/
def runA : Task := { baseTask with id := "a", status := RUNNING }

/-- A task blocked on `runA` for the C1 witness store. -/
def blockedOnA : Task :=
  { baseTask with id := "b", status := BLOCKED, depends_on := ["a"] }

/-- A `BLOCKED` task with an empty `depends_on` for the C1
counterexample store. -/
def blockedEmptyDeps : Task := { baseTask with id := "b", status := BLOCKED }

/-- Witness for `complete_unblocks`: completing `a` in a store where `b`
is `BLOCKED` on `["a"]` promotes `b` to `PENDING` at its position of the
persisted result. -/
theorem complete_unblocks_witness :
    (complete "a" none "T" [runA, blockedOnA]).store[1]? =
      some { blockedOnA with status := PENDING } := by
  have h := complete_unblocks [runA, blockedOnA] "a" none "T"
    { runA with status := DONE, completed_at := some "T", result := none }
    (by decide)
  exact (h 1 blockedOnA (by decide)).1 (by decide)

/-- Counterexample to C1 as stated: complete `a` in a store holding a
`BLOCKED` task `b` whose `depends_on` is empty.  The empty dependency set
is vacuously a subset of the done-id set, so the claim requires `b` to be
`PENDING` in the persisted result, but the source's `and t.depends_on`
guard skips it and `b` is persisted still `BLOCKED`. -/
theorem complete_unblocks_counterexample :
    (complete "a" none "T" [runA, blockedEmptyDeps]).task.isSome = true ∧
    blockedEmptyDeps.status = BLOCKED ∧
    blockedEmptyDeps.depends_on = [] ∧
    (complete "a" none "T" [runA, blockedEmptyDeps]).store[1]? =
      some blockedEmptyDeps ∧
    ¬BLOCKED = PENDING := by
  refine ⟨by decide, rfl, rfl, by decide, by decide⟩

/-- `nextRel` is reflexive (its tie branch compares equal keys). -/
theorem nextRel_refl (a : Task) : nextRel a a :=
  Or.inr ⟨rfl, le_refl _⟩

instance : IsTotal Task nextRel where
  total a b := by
    unfold nextRel
    rcases lt_trichotomy a.priority b.priority with h | h | h
    · exact Or.inr (Or.inl h)
    · rcases le_total a.created_at b.created_at with hc | hc
      · exact Or.inl (Or.inr ⟨h, hc⟩)
      · exact Or.inr (Or.inr ⟨h.symm, hc⟩)
    · exact Or.inl (Or.inl h)

instance : IsTrans Task nextRel where
  trans a b c hab hbc := by
    unfold nextRel at hab hbc ⊢
    rcases hab with h1 | ⟨h1, h1c⟩ <;> rcases hbc with h2 | ⟨h2, h2c⟩
    · exact Or.inl (h2.trans h1)
    · exact Or.inl (h2 ▸ h1)
    · exact Or.inl (h1 ▸ h2)
    · exact Or.inr ⟨h1.trans h2, h1c.trans h2c⟩

/-- **C4.** `next()` considers exactly the `PENDING` tasks: it returns
`none` when none is pending, and otherwise a `PENDING` task (never a
`BLOCKED` or `RUNNING` one) of numerically highest priority among the
pending tasks, whose `created_at` is lexicographically least among the
pending tasks of that priority. -/
theorem next_spec (tasks : List Task) :
    (next tasks = none ↔ ∀ u ∈ tasks, ¬u.status = PENDING) ∧
    (∀ t, next tasks = some t →
      t ∈ tasks ∧ t.status = PENDING ∧ ¬t.status = BLOCKED ∧ ¬t.status = RUNNING ∧
      ∀ u ∈ tasks, u.status = PENDING →
        u.priority ≤ t.priority ∧
        (u.priority = t.priority → t.created_at ≤ u.created_at)) := by
  constructor
  · by_cases hp : (tasks.filter (fun t => t.status == PENDING)).isEmpty
    · rw [List.isEmpty_iff] at hp
      have hnone : next tasks = none := by
        unfold next
        rw [hp]
        rfl
      rw [hnone]
      constructor
      · intro _ u hu hs
        have hmem : u ∈ tasks.filter (fun t => t.status == PENDING) :=
          List.mem_filter.mpr ⟨hu, by simp [hs]⟩
        rw [hp] at hmem
        cases hmem
      · intro _; rfl
    · have hpne : tasks.filter (fun t => t.status == PENDING) ≠ [] := by
        simpa using hp
      rcases List.exists_mem_of_ne_nil _ hpne with ⟨u, hu⟩
      have hu' := List.mem_filter.mp hu
      constructor
      · intro hn
        simp only [next] at hn
        rw [if_neg hp] at hn
        have hperm := List.perm_insertionSort nextRel
          (tasks.filter (fun t => t.status == PENDING))
        have : u ∈ List.insertionSort nextRel
            (tasks.filter (fun t => t.status == PENDING)) := hperm.mem_iff.mpr hu
        cases hs : List.insertionSort nextRel
            (tasks.filter (fun t => t.status == PENDING)) with
        | nil => rw [hs] at this; cases this
        | cons a l => rw [hs] at hn; cases hn
      · intro hall
        exact absurd (by simpa using hu'.2) (hall u hu'.1)
  · intro t ht
    simp only [next] at ht
    by_cases hp : (tasks.filter (fun t => t.status == PENDING)).isEmpty
    · rw [if_pos hp] at ht; cases ht
    · rw [if_neg hp] at ht
      have hperm := List.perm_insertionSort nextRel
        (tasks.filter (fun t => t.status == PENDING))
      have hsorted := List.sorted_insertionSort nextRel
        (tasks.filter (fun t => t.status == PENDING))
      cases hs : List.insertionSort nextRel
          (tasks.filter (fun t => t.status == PENDING)) with
      | nil => rw [hs] at ht; cases ht
      | cons a l =>
        rw [hs] at ht hperm hsorted
        have hta : a = t := by
          simpa using ht
        subst hta
        have hamem : a ∈ tasks.filter (fun t => t.status == PENDING) :=
          hperm.mem_iff.mp (List.mem_cons_self a l)
        have ha' := List.mem_filter.mp hamem
        have hstat : a.status = PENDING := by simpa using ha'.2
        refine ⟨ha'.1, hstat, ?_, ?_, ?_⟩
        · rw [hstat]; decide
        · rw [hstat]; decide
        · intro u hu hus
          have humem : u ∈ a :: l := hperm.mem_iff.mpr
            (List.mem_filter.mpr ⟨hu, by simp [hus]⟩)
          rcases List.mem_cons.mp humem with rfl | hul
          · exact ⟨le_refl _, fun _ => le_refl _⟩
          · have hrel : nextRel a u := List.rel_of_sorted_cons hsorted u hul
            rcases hrel with hlt | ⟨heq, hle⟩
            · exact ⟨hlt.le, fun he => absurd (he ▸ hlt) (lt_irrefl _)⟩
            · exact ⟨heq.ge, fun _ => hle⟩

/-- Witness for `next_spec`: among two pending tasks with priorities 1
and 5, `next` returns the priority-5 task. -/
theorem next_spec_witness :
    (next [{ baseTask with id := "p1", priority := 1 },
           { baseTask with id := "p5", priority := 5 }]).isSome = true ∧
    ∀ u ∈ [{ baseTask with id := "p1", priority := 1 },
           { baseTask with id := "p5", priority := 5 }],
      u.status = PENDING →
      u.priority ≤ ({ baseTask with id := "p5", priority := 5 } : Task).priority := by
  refine ⟨by decide, ?_⟩
  have h := (next_spec [{ baseTask with id := "p1", priority := 1 },
    { baseTask with id := "p5", priority := 5 }]).2
    { baseTask with id := "p5", priority := 5 } (by decide)
  intro u hu hus
  exact (h.2.2.2.2 u hu hus).1

end TaskQueue

end AgentTasks
